import Mathlib

/-!
Verification of the `fang_service` core (data refresh / caching subsystem)
against its specification.

The Python source under `fang_service/core/` is shallowly embedded below:

* `db_models.py`   — SQLite-backed store, modelled as a list of rows
  (`Store`), with `insert_stock_data`, `get_stock_data`, `purge_old_data`.
  The SQLite connection and `sqlite3.Error` paths are not modelled (the
  model has no storage faults); the time-dependent cutoff string
  `(utcnow() - timedelta(hours=MAX_CACHE_AGE_HOURS)).strftime(...)` is
  passed as an explicit `cutoff` parameter, and `created_at`
  (`utcnow().isoformat()`) as an explicit `created` parameter.  SQLite
  compares `TEXT` columns bytewise, which for the ASCII timestamp strings
  used here is the lexicographic order on the character lists; string
  comparisons below use that order.
* `exceptions.py`  — error taxonomy, modelled as structures extending
  `APIError` plus the constructor functions.
* `data_fetcher.py` — `fetch_intraday_data`, modelled as a fueled loop over
  an `attempts` oracle giving the outcome of each HTTP attempt.
* `db_service.py`  — `StockDataService`, modelled with explicit state
  passing; the thread pool of `update_cache` is modelled as a sequential
  fold over the symbol list (per-symbol tasks touch disjoint keys, so the
  final store does not depend on interleaving).

Python's `float(s)` / `int(s)` on the decimal-literal strings handled by
this program are modelled exactly with decimal numbers (`Dec`: an integer
mantissa with a power-of-ten scale; `parseDecimal`, `parsePyInt`), and
`str(float)` / `str(int)` with a canonical decimal printer (`printFloat`,
`printInt`): shortest decimal form with at least one fractional digit,
matching CPython's rendering of decimal-exact values (e.g.
`str(float("100.5000")) = "100.5"`, `str(float("100")) = "100.0"`).
Exponent notation, `inf`/`nan` and underscore separators are outside the
modelled input language.
-/

namespace FangService

/-! ### String helpers (Python `str.upper`, `str.lower`, `in`) -/

/-- Python `s.upper()` for ASCII strings (`Char.toUpper` only maps basic
latin letters, exactly like CPython on ASCII input). -/
def pyUpper (s : String) : String := String.mk (s.data.map Char.toUpper)

/-- Python `s.lower()` for ASCII strings. -/
def pyLower (s : String) : String := String.mk (s.data.map Char.toLower)

/-- `needle` occurs as a contiguous run inside `hay` (list form). -/
def listContainsAux (needle : List Char) : List Char → Bool
  | [] => needle.isPrefixOf []
  | c :: rest => needle.isPrefixOf (c :: rest) || listContainsAux needle rest

/-- Python `needle in hay` for strings. -/
def strContains (hay needle : String) : Bool :=
  listContainsAux needle.data hay.data

/-- Lexicographic (bytewise, for ASCII) order on character lists — the
order SQLite uses when comparing `TEXT` values. -/
def lexLt : List Char → List Char → Bool
  | [], [] => false
  | [], _ :: _ => true
  | _ :: _, [] => false
  | a :: as, b :: bs =>
    if a.toNat < b.toNat then true
    else if b.toNat < a.toNat then false
    else lexLt as bs

/-- `a < b` as SQLite compares `TEXT` columns. -/
def strLt (a b : String) : Bool := lexLt a.data b.data

/-! ### Decimal parsing: model of Python `float(s)` / `int(s)` on
decimal-literal strings -/

/-- Value of a nonempty, all-digit character list, most significant first. -/
def digitsVal : List Char → Option Nat
  | [] => none
  | cs => go cs 0
where
  go : List Char → Nat → Option Nat
    | [], acc => some acc
    | c :: rest, acc =>
      if c.isDigit then go rest (acc * 10 + (c.toNat - 48)) else none

/-- Split a character list at the single `'.'`, if any; `none` when more
than one dot occurs. -/
def splitDot : List Char → Option (List Char × List Char)
  | [] => some ([], [])
  | c :: rest =>
    if c = '.' then
      if rest.contains '.' then none else some ([], rest)
    else
      match splitDot rest with
      | some (i, f) => some (c :: i, f)
      | none => none

/-- A decimal-exact number: the value `num / 10 ^ exp`.  Stands for the
64-bit float column values of the store; every value this program actually
stores comes from `float(decimal-literal)`, which is modelled exactly by
this type. -/
structure Dec where
  num : Int
  exp : Nat
deriving DecidableEq, Repr

/-- The decimal number `0` (the `data.get(key, 0)` default). -/
def decZero : Dec := ⟨0, 0⟩

/-- Model of Python `float(s)` restricted to plain decimal literals:
optional sign, digits, optional single dot.  Returns the exact decimal
value; `none` models `ValueError`. -/
def parseDecimal (s : String) : Option Dec :=
  let cs := s.data
  let (neg, body) :=
    match cs with
    | '-' :: rest => (true, rest)
    | '+' :: rest => (false, rest)
    | _ => (false, cs)
  match splitDot body with
  | none => none
  | some (ip, fp) =>
    if ip = [] ∧ fp = [] then none
    else
      let iv : Option Nat := if ip = [] then some 0 else digitsVal ip
      let fv : Option Nat := if fp = [] then some 0 else digitsVal fp
      match iv, fv with
      | some i, some f =>
        let mag : Int := (i * 10 ^ fp.length + f : Nat)
        some ⟨if neg then -mag else mag, fp.length⟩
      | _, _ => none

/-- Model of Python `int(s)`: optional sign followed by digits only
(`int("1.5")` raises `ValueError`). -/
def parsePyInt (s : String) : Option Int :=
  let cs := s.data
  let (neg, body) :=
    match cs with
    | '-' :: rest => (true, rest)
    | '+' :: rest => (false, rest)
    | _ => (false, cs)
  match digitsVal body with
  | some n => some (if neg then -(n : Int) else (n : Int))
  | none => none

/-- `float(data.get(key, 0))` — a missing key defaults to the number `0`,
a present key goes through `float(string)`. -/
def parsePrice : Option String → Option Dec
  | none => some decZero
  | some s => parseDecimal s

/-- `int(data.get("5. volume", 0))`. -/
def parseVol : Option String → Option Int
  | none => some 0
  | some s => parsePyInt s

/-! ### Decimal printing: model of Python `str(float)` / `str(int)` -/

/-- Drop trailing `'0'` characters. -/
def trimZeros (cs : List Char) : List Char :=
  (cs.reverse.dropWhile (· = '0')).reverse

/-- Pad with leading `'0'` characters to length `k`. -/
def padLeft (k : Nat) (cs : List Char) : List Char :=
  List.replicate (k - cs.length) '0' ++ cs

/-- Model of Python `str(x)` for a float holding the decimal-exact value
`d`: sign, integer part, dot, fractional digits with trailing zeros
trimmed, at least one fractional digit. -/
def printFloat (d : Dec) : String :=
  let a := d.num.natAbs
  let ip := a / 10 ^ d.exp
  let fp := a % 10 ^ d.exp
  let fracCs := trimZeros (padLeft d.exp (Nat.toDigits 10 fp))
  let frac := if fracCs = [] then "0" else String.mk fracCs
  (if d.num < 0 then "-" else "") ++ String.mk (Nat.toDigits 10 ip) ++ "." ++ frac

/-- Model of Python `str(n)` for an int. -/
def printInt (n : Int) : String :=
  (if n < 0 then "-" else "") ++ String.mk (Nat.toDigits 10 n.natAbs)

/-! ### `db_models.py` — the persistent store -/

/-- The five Alpha-Vantage-format value strings of one data point as passed
to `insert_stock_data` (`data.get("1. open")` … `data.get("5. volume")`);
`none` models a missing key. -/
structure RawRow where
  openS : Option String
  highS : Option String
  lowS : Option String
  closeS : Option String
  volumeS : Option String
deriving DecidableEq, Repr

/-- One row of the `stock_data` table. -/
structure Row where
  symbol : String
  timestamp : String
  openP : Dec
  highP : Dec
  lowP : Dec
  closeP : Dec
  volume : Int
  createdAt : String
deriving DecidableEq, Repr

/-- The `stock_data` table (row order = rowid order; `INSERT OR REPLACE`
deletes the conflicting row and appends the replacement). -/
abbrev Store := List Row

/-- The five strings of one entry of the mapping returned by
`get_stock_data` (`"1. open"` … `"5. volume"`). -/
structure OutRow where
  openS : String
  highS : String
  lowS : String
  closeS : String
  volumeS : String
deriving DecidableEq, Repr

/-- Render a stored row back to the Alpha-Vantage string format, as in the
result loop of `get_stock_data`. -/
def rowOut (r : Row) : OutRow :=
  ⟨printFloat r.openP, printFloat r.highP, printFloat r.lowP,
   printFloat r.closeP, printInt r.volume⟩

/-- Key match for the `UNIQUE(symbol, timestamp)` constraint. -/
def keyMatch (symbol timestamp : String) (r : Row) : Bool :=
  r.symbol = symbol && r.timestamp = timestamp

/-- `insert_stock_data(symbol, timestamp, data)`: parse the five fields
(`float`/`int`, missing keys defaulting to `0`), then
`INSERT OR REPLACE` on the unique key; a `ValueError` from parsing returns
`False` and leaves the table untouched.  `created` stands for the
`created_at` audit string computed from `utcnow()`. -/
def insert_stock_data (symbol timestamp : String) (data : RawRow)
    (created : String) (st : Store) : Bool × Store :=
  match parsePrice data.openS, parsePrice data.highS, parsePrice data.lowS,
        parsePrice data.closeS, parseVol data.volumeS with
  | some o, some h, some l, some c, some v =>
    (true,
      st.filter (fun r => !keyMatch symbol timestamp r) ++
        [⟨symbol, timestamp, o, h, l, c, v, created⟩])
  | _, _, _, _, _ => (false, st)

/-- Insertion into a list sorted by timestamp descending. -/
def insertTsDesc (r : Row) : List Row → List Row
  | [] => [r]
  | x :: xs =>
    if strLt r.timestamp x.timestamp then x :: insertTsDesc r xs
    else r :: x :: xs

/-- `ORDER BY timestamp DESC`. -/
def sortTsDesc : List Row → List Row
  | [] => []
  | x :: xs => insertTsDesc x (sortTsDesc xs)

/-- `get_stock_data(symbol)`: rows with `symbol = symbol.upper()` and
`timestamp >= cutoff`, ordered by timestamp descending, rendered back to
the Alpha-Vantage string format and keyed by timestamp.  `cutoff` stands
for `(utcnow() - timedelta(hours=MAX_CACHE_AGE_HOURS)).strftime(...)`. -/
def get_stock_data (symbol cutoff : String) (st : Store) :
    List (String × OutRow) :=
  let rows := st.filter
    (fun r => r.symbol = pyUpper symbol && !strLt r.timestamp cutoff)
  (sortTsDesc rows).map (fun r => (r.timestamp, rowOut r))

/-- `purge_old_data()`: `DELETE FROM stock_data WHERE timestamp < cutoff`,
returning `cursor.rowcount` (the number of deleted rows). -/
def purge_old_data (cutoff : String) (st : Store) : Nat × Store :=
  let kept := st.filter (fun r => !strLt r.timestamp cutoff)
  (st.length - kept.length, kept)

/-! ### `exceptions.py` — error taxonomy -/

/-- Base class `APIError(message, status_code=500, details=None)`.  The
`details or {}` default is modelled through an `Option` argument of the
constructor functions; detail values are modelled as strings. -/
structure APIError where
  message : String
  status_code : Nat
  details : List (String × String)
deriving DecidableEq, Repr

/-- `RateLimitError`, a subclass of `APIError` with an extra
`is_warning` attribute. -/
structure RateLimitError extends APIError where
  is_warning : Bool
deriving DecidableEq, Repr

/-- `NetworkError`, a subclass of `APIError`. -/
structure NetworkError extends APIError
deriving DecidableEq, Repr

/-- `AuthenticationError`, a subclass of `APIError`. -/
structure AuthenticationError extends APIError
deriving DecidableEq, Repr

/-- `DataRetrievalError`, a subclass of `APIError`. -/
structure DataRetrievalError extends APIError
deriving DecidableEq, Repr

/-- `DataNotFoundError`, a subclass of `APIError`. -/
structure DataNotFoundError extends APIError
deriving DecidableEq, Repr

/-- `RateLimitError.__init__`: `super().__init__(message, 200, details)`
and `self.is_warning = True`. -/
def mkRateLimitError (message : String)
    (details : Option (List (String × String))) : RateLimitError :=
  ⟨⟨message, 200, details.getD []⟩, true⟩

/-- `NetworkError.__init__`: status code 503. -/
def mkNetworkError (message : String)
    (details : Option (List (String × String))) : NetworkError :=
  ⟨⟨message, 503, details.getD []⟩⟩

/-- `AuthenticationError.__init__`: status code 401. -/
def mkAuthenticationError (message : String)
    (details : Option (List (String × String))) : AuthenticationError :=
  ⟨⟨message, 401, details.getD []⟩⟩

/-- `DataRetrievalError.__init__`: status code 500. -/
def mkDataRetrievalError (message : String)
    (details : Option (List (String × String))) : DataRetrievalError :=
  ⟨⟨message, 500, details.getD []⟩⟩

/-- `DataNotFoundError.__init__`: status code 404. -/
def mkDataNotFoundError (message : String)
    (details : Option (List (String × String))) : DataNotFoundError :=
  ⟨⟨message, 404, details.getD []⟩⟩

/-- The kind of `exceptions.py` error raised on a control path (message
and details do not influence any control flow modelled here). -/
inductive ApiErr
  | rateLimit
  | network
  | auth
  | dataRetrieval
deriving DecidableEq, Repr

/-! ### `data_fetcher.py` — `fetch_intraday_data` -/

/-- `RETRY_DELAY = 10` (seconds). -/
def RETRY_DELAY : Nat := 10

/-- `MAX_RETRIES = 3`. -/
def MAX_RETRIES : Nat := 3

/-- The parsed JSON body of one Alpha Vantage response, restricted to the
fields `fetch_intraday_data` inspects: `"Error Message"`, `"Information"`,
`"Note"`, and the `"Time Series (interval)"` object (`none` = key absent;
`some []` = present but empty). -/
structure ApiBody where
  errorMessage : Option String
  information : Option String
  note : Option String
  timeSeries : Option (List (String × RawRow))
deriving DecidableEq, Repr

/-- What one attempt of the `while` loop observes from
`requests.get` + `raise_for_status()` + `response.json()`:
a `Timeout`, an `HTTPError` with a status code, another
`RequestException` (connection failure), or a parsed body. -/
inductive FetchOutcome
  | timeout
  | httpError (status : Nat)
  | requestExc
  | response (body : ApiBody)
deriving DecidableEq, Repr

/-- `"Invalid API call" in error_msg`. -/
def errMsgAuth (msg : String) : Bool := strContains msg "Invalid API call"

/-- `any(phrase in info_message.lower() for phrase in [...])` — rate-limit
phrases. -/
def infoRateLimit (info : String) : Bool :=
  strContains (pyLower info) "api call frequency" ||
    strContains (pyLower info) "standard api rate limit"

/-- `any(phrase in info_message.lower() for phrase in ["per day", "per month"])`. -/
def infoHardLimit (info : String) : Bool :=
  strContains (pyLower info) "per day" || strContains (pyLower info) "per month"

/-- The `"Information"` branch raises `RateLimitError` exactly when the
message matches a rate-limit phrase and a daily/monthly phrase. -/
def infoRaises (b : ApiBody) : Bool :=
  match b.information with
  | some info => infoRateLimit info && infoHardLimit info
  | none => false

/-- `"Note" in data and "API call frequency" in data["Note"]`. -/
def noteRateLimited (b : ApiBody) : Bool :=
  match b.note with
  | some n => strContains n "API call frequency"
  | none => false

/-- Result of processing one parsed body inside the `try` block. -/
inductive BodyStep
  | raiseInTry (e : ApiErr)
  | rateNoteWait
  | ret (ts : List (String × RawRow))
deriving DecidableEq, Repr

/-- The body checks of `fetch_intraday_data`, in source order:
`"Error Message"` (auth vs. data-retrieval), the `"Information"`
hard-rate-limit raise, the `"Note"` rate-limit sleep-and-retry, the missing
time-series key, the empty time series, else return the data. -/
def processBody (b : ApiBody) : BodyStep :=
  match b.errorMessage with
  | some msg =>
    if errMsgAuth msg then .raiseInTry .auth else .raiseInTry .dataRetrieval
  | none =>
    if infoRaises b then .raiseInTry .rateLimit
    else if noteRateLimited b then .rateNoteWait
    else
      match b.timeSeries with
      | none => .raiseInTry .dataRetrieval
      | some ts => if ts.isEmpty then .raiseInTry .dataRetrieval else .ret ts

/-- An exception raised inside the `try` body (all of them are `APIError`
subclasses) is matched by none of the `Timeout` / `HTTPError` /
`RequestException` / `(KeyError, ValueError, TypeError)` clauses and falls
through to the final `except Exception` handler, which re-raises it as
`DataRetrievalError("Unexpected error fetching data ...")`. -/
def wrapInTry : ApiErr → ApiErr := fun _ => .dataRetrieval

/-- Result of `fetch_intraday_data`: the returned time series, or the
kind of exception that escapes. -/
inductive FetchResult
  | ok (ts : List (String × RawRow))
  | err (e : ApiErr)
deriving DecidableEq, Repr

/-- The `while retry_count < max_retries` loop of `fetch_intraday_data`,
called with `fuel = maxRetries - rc` so that `fuel = 0` is exactly the
loop exit (which raises `NetworkError`).  `attempts i` is the outcome of
the attempt with `retry_count = i`.  The first component collects the
`time.sleep` durations in order: `RETRY_DELAY * 2 ^ retry_count` for the
generic backoff at the loop end, `RETRY_DELAY * 5 ^ retry_count` for the
`"Note"` rate-limit branch. -/
def fetchLoop (attempts : Nat → FetchOutcome) (maxRetries : Nat) :
    Nat → Nat → List Nat × FetchResult
  | _, 0 => ([], .err .network)
  | rc, fuel + 1 =>
    let backoff : List Nat × FetchResult :=
      let rest := fetchLoop attempts maxRetries (rc + 1) fuel
      (RETRY_DELAY * 2 ^ rc :: rest.1, rest.2)
    match attempts rc with
    | .timeout => backoff
    | .httpError status =>
      if status < 500 then
        if status = 401 ∨ status = 403 then ([], .err .auth)
        else ([], .err .dataRetrieval)
      else backoff
    | .requestExc =>
      if maxRetries - 1 ≤ rc then ([], .err .network) else backoff
    | .response body =>
      match processBody body with
      | .raiseInTry e => ([], .err (wrapInTry e))
      | .rateNoteWait =>
        let rest := fetchLoop attempts maxRetries (rc + 1) fuel
        (RETRY_DELAY * 5 ^ rc :: rest.1, rest.2)
      | .ret ts => ([], .ok ts)

/-- `fetch_intraday_data(symbol, ..., max_retries)`, starting at
`retry_count = 0`. -/
def fetch_intraday_data (attempts : Nat → FetchOutcome)
    (maxRetries : Nat) : List Nat × FetchResult :=
  fetchLoop attempts maxRetries 0 maxRetries

/-! ### `db_service.py` — `StockDataService` -/

/-- What a `_fetch_and_store` task does: return `(success, count)`
normally, or let an `UnboundLocalError` escape — the `except
RateLimitError` handler executes `return success_count > 0, success_count`,
but `success_count` is assigned only after `fetch_intraday_data` has
returned, so when the fetch itself raised, the name is unbound. -/
inductive TaskOutcome
  | ret (success : Bool) (count : Nat)
  | unboundLocal
deriving DecidableEq, Repr

/-- One iteration of the insert loop of `_fetch_and_store`: insert the
data point, and count it when `insert_stock_data` returned `True`. -/
def insStep (symbol created : String) (acc : Nat × Store)
    (p : String × RawRow) : Nat × Store :=
  let r := insert_stock_data symbol p.1 p.2 created acc.2
  (if r.1 then acc.1 + 1 else acc.1, r.2)

/-- `StockDataService._fetch_and_store(symbol)`, with the result of
`fetch_intraday_data(symbol)` passed in as `fr` (`Except.error e` = the
fetch raised an error of kind `e`).  On data, each `(timestamp, point)`
is inserted in iteration order and successes are counted; an empty dict
returns `(False, 0)`; `NetworkError` / `DataRetrievalError` return
`(False, 0)`; any other exception (here: `AuthenticationError`) is caught
by the final `except Exception` and returns `(False, 0)`; `RateLimitError`
reaches the handler that evaluates the unbound `success_count`. -/
def fetch_and_store (fr : Except ApiErr (List (String × RawRow)))
    (created symbol : String) (st : Store) : TaskOutcome × Store :=
  match fr with
  | .ok raw =>
    if raw.isEmpty then (.ret false 0, st)
    else
      let res := raw.foldl (insStep symbol created) (0, st)
      (.ret true res.1, res.2)
  | .error .rateLimit => (.unboundLocal, st)
  | .error .network => (.ret false 0, st)
  | .error .dataRetrieval => (.ret false 0, st)
  | .error .auth => (.ret false 0, st)

/-- The counters of `StockDataService` touched by the modelled paths. -/
structure ServiceState where
  update_count : Nat
  failed_updates : Nat
  cache_hits : Nat
  cache_misses : Nat
deriving DecidableEq, Repr

/-- One per-symbol task of `update_cache` together with its result
collection: a `(success=False, _)` return or an exception propagating out
of `future.result()` (the `UnboundLocalError` case, caught by the generic
`except Exception`) clears the cycle's `update_success` flag. -/
def cycleStep (fetchRes : String → Except ApiErr (List (String × RawRow)))
    (created : String) (acc : Bool × Store) (sym : String) : Bool × Store :=
  match fetch_and_store (fetchRes sym) created sym acc.2 with
  | (.ret true _, st') => (acc.1, st')
  | (.ret false _, st') => (false, st')
  | (.unboundLocal, st') => (false, st')

/-- `StockDataService.update_cache()`.  The thread pool is modelled as a
sequential fold over the symbol list: each task runs `_fetch_and_store`;
tasks of distinct symbols write disjoint keys, so the final store does not
depend on the completion order.  After all tasks, `purge_old_data` runs,
then the statistics are updated (`last_update`, a wall-clock value, is not
modelled). -/
def update_cache (symbols : List String)
    (fetchRes : String → Except ApiErr (List (String × RawRow)))
    (created cutoff : String) (st : Store) (s : ServiceState) :
    Bool × Store × ServiceState :=
  let r := symbols.foldl (cycleStep fetchRes created) (true, st)
  let st2 := (purge_old_data cutoff r.2).2
  (r.1, st2,
    { s with
        update_count := s.update_count + 1,
        failed_updates :=
          if r.1 then s.failed_updates else s.failed_updates + 1 })

/-- `StockDataService.get_data(symbol)`: uppercase the symbol, delegate to
`get_stock_data`, then bump the hit counter on a non-empty result and the
miss counter on an empty one. -/
def get_data (symbol cutoff : String) (st : Store) (s : ServiceState) :
    List (String × OutRow) × ServiceState :=
  let result := get_stock_data (pyUpper symbol) cutoff st
  (result,
    if result.isEmpty then { s with cache_misses := s.cache_misses + 1 }
    else { s with cache_hits := s.cache_hits + 1 })

/-- `FANG_SYMBOLS` with its default value. -/
def FANG_SYMBOLS : List String := ["FB", "AMZN", "NFLX", "GOOG"]

/-! ## Helper lemmas -/

theorem length_filter_not_add (p : α → Bool) (l : List α) :
    (l.filter p).length + (l.filter (fun a => !p a)).length = l.length := by
  induction l with
  | nil => rfl
  | cons x xs ih => cases hx : p x <;> simp [List.filter_cons, hx] <;> omega

theorem parsePrice_eq_none_iff (o : Option String) :
    parsePrice o = none ↔ ∃ s, o = some s ∧ parseDecimal s = none := by
  cases o <;> simp [parsePrice]

theorem parseVol_eq_none_iff (o : Option String) :
    parseVol o = none ↔ ∃ s, o = some s ∧ parsePyInt s = none := by
  cases o <;> simp [parseVol]

/-! ## Claim theorems -/

/-- **C5.** `purge_old_data` deletes exactly the rows whose timestamp is
strictly older than the cutoff: a row survives iff it was present and is
not strictly older, the reported count is the number of strictly-older
rows, and running the purge again with the same cutoff deletes nothing and
changes nothing. -/
theorem purge_exact_and_idempotent (cutoff : String) (st : Store) :
    (∀ r : Row, r ∈ (purge_old_data cutoff st).2 ↔
        r ∈ st ∧ strLt r.timestamp cutoff = false)
    ∧ (purge_old_data cutoff st).1 =
        (st.filter (fun r => strLt r.timestamp cutoff)).length
    ∧ purge_old_data cutoff (purge_old_data cutoff st).2 =
        (0, (purge_old_data cutoff st).2) := by
  refine ⟨?_, ?_, ?_⟩
  · intro r
    simp [purge_old_data, List.mem_filter]
  · have h := length_filter_not_add (fun r => strLt r.timestamp cutoff) st
    simp only [purge_old_data]
    omega
  · have hself :
        ((st.filter (fun r => !strLt r.timestamp cutoff)).filter
          (fun r => !strLt r.timestamp cutoff)) =
          st.filter (fun r => !strLt r.timestamp cutoff) := by
      rw [List.filter_eq_self]
      intro a ha
      exact (List.mem_filter.mp ha).2
    simp [purge_old_data, hself]

/-- **C7.** Two upserts to the same `(symbol, timestamp)` key leave exactly
one row for that key, holding the value of the second upsert
(last-write-wins); the fields of that row are the parsed fields of `v2`
regardless of `v1` and of what the store already held for the key. -/
theorem upsert_last_write_wins (sym ts : String) (v1 v2 : RawRow)
    (c1 c2 : String) (st : Store) (o h l c : Dec) (vol : Int)
    (_hne : v1 ≠ v2)
    (ho : parsePrice v2.openS = some o) (hh : parsePrice v2.highS = some h)
    (hl : parsePrice v2.lowS = some l) (hc : parsePrice v2.closeS = some c)
    (hv : parseVol v2.volumeS = some vol) :
    ((insert_stock_data sym ts v2 c2
        (insert_stock_data sym ts v1 c1 st).2).2).filter (keyMatch sym ts) =
      [⟨sym, ts, o, h, l, c, vol, c2⟩] := by
  have key_of_filtered :
      ∀ (l' : Store),
        (l'.filter (fun r => !keyMatch sym ts r)).filter (keyMatch sym ts) = [] := by
    intro l'
    rw [List.filter_filter, List.filter_eq_nil_iff]
    intro a _
    cases hk : keyMatch sym ts a <;> simp [hk]
  simp only [insert_stock_data, ho, hh, hl, hc, hv]
  rw [List.filter_append, key_of_filtered]
  simp [keyMatch]

/-- **C9.** `insert_stock_data` accepts rows with missing OHLCV keys,
storing `0` for each missing field: when it succeeds, the inserted row has
the zero value in every field whose key was absent; and it returns `False`
precisely when some present field fails numeric parsing (storage faults
are outside the model). -/
theorem insert_missing_fields_default (sym ts created : String)
    (d : RawRow) (st : Store) :
    ((insert_stock_data sym ts d created st).1 = true →
      ∃ r : Row,
        (insert_stock_data sym ts d created st).2 =
          st.filter (fun x => !keyMatch sym ts x) ++ [r]
        ∧ (d.openS = none → r.openP = decZero)
        ∧ (d.highS = none → r.highP = decZero)
        ∧ (d.lowS = none → r.lowP = decZero)
        ∧ (d.closeS = none → r.closeP = decZero)
        ∧ (d.volumeS = none → r.volume = 0))
    ∧ ((insert_stock_data sym ts d created st).1 = false ↔
        (∃ s, d.openS = some s ∧ parseDecimal s = none)
        ∨ (∃ s, d.highS = some s ∧ parseDecimal s = none)
        ∨ (∃ s, d.lowS = some s ∧ parseDecimal s = none)
        ∨ (∃ s, d.closeS = some s ∧ parseDecimal s = none)
        ∨ (∃ s, d.volumeS = some s ∧ parsePyInt s = none)) := by
  rw [← parsePrice_eq_none_iff, ← parsePrice_eq_none_iff, ← parsePrice_eq_none_iff,
    ← parsePrice_eq_none_iff, ← parseVol_eq_none_iff]
  rcases ho : parsePrice d.openS with _ | o <;>
    rcases hh : parsePrice d.highS with _ | h <;>
    rcases hl : parsePrice d.lowS with _ | l <;>
    rcases hc : parsePrice d.closeS with _ | c <;>
    rcases hv : parseVol d.volumeS with _ | v <;>
    simp only [insert_stock_data, ho, hh, hl, hc, hv] <;>
    simp only [Bool.false_eq_true, false_implies, true_and, false_iff, true_iff,
      Bool.true_eq_false, not_or, forall_const, true_implies] <;>
    try simp_all
  refine ⟨?_, ?_, ?_, ?_, ?_⟩ <;> intro hnone
  · rw [hnone] at ho; exact (Option.some_injective _ ho).symm
  · rw [hnone] at hh; exact (Option.some_injective _ hh).symm
  · rw [hnone] at hl; exact (Option.some_injective _ hl).symm
  · rw [hnone] at hc; exact (Option.some_injective _ hc).symm
  · rw [hnone] at hv; exact (Option.some_injective _ hv).symm

/-- **C10.** Every error kind carries its message and (possibly empty)
details map through the shared `APIError` base, and is constructed with
its fixed status code: `RateLimitError` 200 with `is_warning = True`,
`NetworkError` 503, `AuthenticationError` 401, `DataRetrievalError` 500. -/
theorem error_taxonomy_fixed_codes (msg : String)
    (det : Option (List (String × String))) :
    (mkRateLimitError msg det).status_code = 200
    ∧ (mkRateLimitError msg det).is_warning = true
    ∧ (mkRateLimitError msg det).message = msg
    ∧ (mkRateLimitError msg det).details = det.getD []
    ∧ (mkNetworkError msg det).status_code = 503
    ∧ (mkNetworkError msg det).message = msg
    ∧ (mkNetworkError msg det).details = det.getD []
    ∧ (mkAuthenticationError msg det).status_code = 401
    ∧ (mkAuthenticationError msg det).message = msg
    ∧ (mkAuthenticationError msg det).details = det.getD []
    ∧ (mkDataRetrievalError msg det).status_code = 500
    ∧ (mkDataRetrievalError msg det).message = msg
    ∧ (mkDataRetrievalError msg det).details = det.getD [] := by
  refine ⟨rfl, rfl, rfl, rfl, rfl, rfl, rfl, rfl, rfl, rfl, rfl, rfl, rfl⟩

theorem charToUpper_idem (c : Char) : c.toUpper.toUpper = c.toUpper := by
  unfold Char.toUpper
  by_cases hc : c.toNat ≥ 97 ∧ c.toNat ≤ 122
  · rw [if_pos hc]
    generalize c.toNat = n at hc
    obtain ⟨h1, h2⟩ := hc
    interval_cases n <;> decide
  · rw [if_neg hc, if_neg hc]

theorem pyUpper_idem (s : String) : pyUpper (pyUpper s) = pyUpper s := by
  unfold pyUpper
  refine congrArg String.mk ?_
  show (s.data.map Char.toUpper).map Char.toUpper = s.data.map Char.toUpper
  rw [List.map_map]
  exact List.map_congr_left (fun a _ => charToUpper_idem a)

theorem mem_insertTsDesc {a r : Row} {l : List Row} :
    a ∈ insertTsDesc r l ↔ a = r ∨ a ∈ l := by
  induction l with
  | nil => simp [insertTsDesc]
  | cons x xs ih =>
    cases hlt : strLt r.timestamp x.timestamp <;>
      simp [insertTsDesc, hlt, ih] <;> tauto

theorem mem_sortTsDesc {a : Row} {l : List Row} :
    a ∈ sortTsDesc l ↔ a ∈ l := by
  induction l with
  | nil => simp [sortTsDesc]
  | cons x xs ih => simp [sortTsDesc, mem_insertTsDesc, ih]

theorem lookup_map_unique (f : Row → OutRow) (r₀ : Row) :
    ∀ l : List Row, r₀ ∈ l → (∀ r ∈ l, r.timestamp = r₀.timestamp → r = r₀) →
      List.lookup r₀.timestamp (l.map fun r => (r.timestamp, f r)) = some (f r₀) := by
  intro l
  induction l with
  | nil => simp
  | cons x xs ih =>
    intro hmem huniq
    by_cases hx : x.timestamp = r₀.timestamp
    · have hxr : x = r₀ := huniq x (by simp) hx
      simp [List.lookup, hx, hxr]
    · have hne : r₀ ≠ x := fun he => hx (by rw [he])
      have hmem' : r₀ ∈ xs := by
        rcases List.mem_cons.mp hmem with h | h
        · exact absurd h hne
        · exact h
      have hx' : (r₀.timestamp == x.timestamp) = false := by
        simp [beq_iff_eq]
        exact fun he => hx he.symm
      simp only [List.map_cons, List.lookup, hx']
      exact ih hmem' (fun r hr ht => huniq r (by simp [hr]) ht)

/-- **C6 (original claim refuted).** A successful upsert followed by a get
does not return the stored value string-for-string: inserting
`"100.0000"`-style strings and reading them back yields the float
re-rendering `"100.0"` etc., not the original strings. -/
theorem roundtrip_raw_string_counterexample :
    (insert_stock_data "FB" "2024-01-01 10:00:00"
        ⟨some "100.0000", some "101.0000", some "99.0000", some "100.5000",
          some "1000000"⟩ "c" []).1 = true
    ∧ List.lookup "2024-01-01 10:00:00"
        (get_stock_data "FB" "1900-01-01 00:00:00"
          (insert_stock_data "FB" "2024-01-01 10:00:00"
            ⟨some "100.0000", some "101.0000", some "99.0000", some "100.5000",
              some "1000000"⟩ "c" []).2) ≠
      some ⟨"100.0000", "101.0000", "99.0000", "100.5000", "1000000"⟩ := by
  decide

/-- **C6 (amended).** For a symbol already in canonical uppercase form, a
successful upsert of `(sym, ts, v)` followed immediately by a get for
`sym` with a window including `ts` returns a mapping whose entry at `ts`
equals `v` with each field normalized numerically — parsed as by the
insert and re-rendered by the read — rather than the raw strings. -/
theorem roundtrip_normalized (sym ts : String) (v : RawRow)
    (created cutoff : String) (st : Store) (o h l c : Dec) (vol : Int)
    (hsym : pyUpper sym = sym)
    (ho : parsePrice v.openS = some o) (hh : parsePrice v.highS = some h)
    (hl : parsePrice v.lowS = some l) (hc : parsePrice v.closeS = some c)
    (hv : parseVol v.volumeS = some vol)
    (hcut : strLt ts cutoff = false) :
    (insert_stock_data sym ts v created st).1 = true
    ∧ List.lookup ts
        (get_stock_data sym cutoff (insert_stock_data sym ts v created st).2) =
      some ⟨printFloat o, printFloat h, printFloat l, printFloat c, printInt vol⟩ := by
  have hins :
      insert_stock_data sym ts v created st =
        (true, st.filter (fun r => !keyMatch sym ts r) ++
          [⟨sym, ts, o, h, l, c, vol, created⟩]) := by
    simp [insert_stock_data, ho, hh, hl, hc, hv]
  refine ⟨by rw [hins], ?_⟩
  rw [hins]
  unfold get_stock_data
  set row : Row := ⟨sym, ts, o, h, l, c, vol, created⟩ with hrow
  set l' : List Row :=
    (st.filter (fun r => !keyMatch sym ts r) ++ [row]).filter
      (fun r => r.symbol = pyUpper sym && !strLt r.timestamp cutoff) with hl'
  have hrmem : row ∈ l' := by
    rw [hl']
    refine List.mem_filter.mpr ⟨by simp, ?_⟩
    simp [hrow, hsym, hcut]
  have hruniq : ∀ r ∈ sortTsDesc l', r.timestamp = row.timestamp → r = row := by
    intro r hr ht
    have hr' := mem_sortTsDesc.mp hr
    rw [hl'] at hr'
    have hmem2 := (List.mem_filter.mp hr').1
    have hcond := (List.mem_filter.mp hr').2
    rcases List.mem_append.mp hmem2 with hin | hin
    · exfalso
      have hk := (List.mem_filter.mp hin).2
      have hsymr : r.symbol = pyUpper sym := by
        have hc2 : r.symbol = pyUpper sym ∧ strLt r.timestamp cutoff = false := by
          simpa using hcond
        exact hc2.1
      rw [hsym] at hsymr
      simp [keyMatch, hsymr, ht, hrow] at hk
    · simpa using hin
  have := lookup_map_unique rowOut row (sortTsDesc l')
    (mem_sortTsDesc.mpr hrmem) hruniq
  simpa [hrow, rowOut] using this

/-- **C8.** For a symbol with no stored data, `get_data` returns an empty
mapping, bumps the miss counter by exactly one, leaves the hit counter
unchanged, and its result is exactly the store lookup for the
uppercase-normalized symbol. -/
theorem get_data_miss_counts (S cutoff : String) (st : Store)
    (s : ServiceState) :
    ((∀ r ∈ st, r.symbol ≠ pyUpper S) →
      (get_data S cutoff st s).1 = []
      ∧ (get_data S cutoff st s).2.cache_misses = s.cache_misses + 1
      ∧ (get_data S cutoff st s).2.cache_hits = s.cache_hits)
    ∧ (get_data S cutoff st s).1 = get_stock_data (pyUpper S) cutoff st := by
  refine ⟨?_, rfl⟩
  intro hnone
  have hempty : get_stock_data (pyUpper S) cutoff st = [] := by
    unfold get_stock_data
    have hfil :
        st.filter (fun r =>
          r.symbol = pyUpper (pyUpper S) && !strLt r.timestamp cutoff) = [] := by
      rw [List.filter_eq_nil_iff]
      intro r hr
      simp [pyUpper_idem, hnone r hr]
    simp [hfil, sortTsDesc]
  refine ⟨?_, ?_, ?_⟩ <;> simp [get_data, hempty]


def retryable (o : FetchOutcome) : Bool :=
  match o with
  | .timeout => true
  | .httpError status => decide (500 ≤ status)
  | .requestExc => true
  | .response b => decide (processBody b = .rateNoteWait)

def isRateNote (o : FetchOutcome) : Bool :=
  match o with
  | .response b => decide (processBody b = .rateNoteWait)
  | _ => false

def waitAt (attempts : Nat → FetchOutcome) (j : Nat) : Nat :=
  if isRateNote (attempts j) then RETRY_DELAY * 5 ^ j else RETRY_DELAY * 2 ^ j

theorem fetchLoop_exhaust (attempts : Nat → FetchOutcome) (M : Nat) :
    ∀ fuel rc, rc + fuel = M →
      (∀ i, rc ≤ i → i < M → retryable (attempts i) = true) →
      (fetchLoop attempts M rc fuel).2 = .err .network
      ∧ (∀ i, i < (fetchLoop attempts M rc fuel).1.length →
          (fetchLoop attempts M rc fuel).1.getD i 0 = waitAt attempts (rc + i))
      ∧ fuel - 1 ≤ (fetchLoop attempts M rc fuel).1.length
      ∧ (fetchLoop attempts M rc fuel).1.length ≤ fuel := by
  intro fuel
  induction fuel with
  | zero =>
    intro rc hsum hall
    simp [fetchLoop]
  | succ n ih =>
    intro rc hsum hall
    have hrc : rc < M := by omega
    have hret := hall rc (le_refl rc) hrc
    have hihargs : ∀ i, rc + 1 ≤ i → i < M → retryable (attempts i) = true :=
      fun i hi1 hi2 => hall i (by omega) hi2
    have hih := ih (rc + 1) (by omega) hihargs
    cases hatt : attempts rc with
    | timeout =>
      have hnote : isRateNote (attempts rc) = false := by simp [isRateNote, hatt]
      simp only [fetchLoop, hatt]
      refine ⟨hih.1, ?_, ?_, ?_⟩
      · intro i hi
        cases i with
        | zero => simp [waitAt, hnote]
        | succ j =>
          simp only [List.getD_cons_succ, List.length_cons] at hi ⊢
          have := hih.2.1 j (by omega)
          rw [this]
          congr 1
          omega
      · simp only [List.length_cons]; omega
      · simp only [List.length_cons]; omega
    | httpError status =>
      have h500 : (500 ≤ status) := by
        have := hret; simp [retryable, hatt] at this; exact this
      have hlt : ¬ status < 500 := by omega
      have hnote : isRateNote (attempts rc) = false := by simp [isRateNote, hatt]
      simp only [fetchLoop, hatt, if_neg hlt]
      refine ⟨hih.1, ?_, ?_, ?_⟩
      · intro i hi
        cases i with
        | zero => simp [waitAt, hnote]
        | succ j =>
          simp only [List.getD_cons_succ, List.length_cons] at hi ⊢
          have := hih.2.1 j (by omega)
          rw [this]
          congr 1
          omega
      · simp only [List.length_cons]; omega
      · simp only [List.length_cons]; omega
    | requestExc =>
      by_cases hlast : M - 1 ≤ rc
      · have hn0 : n = 0 := by omega
        subst hn0
        simp only [fetchLoop, hatt, if_pos hlast]
        simp
      · have hnote : isRateNote (attempts rc) = false := by simp [isRateNote, hatt]
        simp only [fetchLoop, hatt, if_neg hlast]
        refine ⟨hih.1, ?_, ?_, ?_⟩
        · intro i hi
          cases i with
          | zero => simp [waitAt, hnote]
          | succ j =>
            simp only [List.getD_cons_succ, List.length_cons] at hi ⊢
            have := hih.2.1 j (by omega)
            rw [this]
            congr 1
            omega
        · simp only [List.length_cons]; omega
        · simp only [List.length_cons]; omega
    | response body =>
      have hbody : processBody body = .rateNoteWait := by
        have := hret; simp [retryable, hatt] at this; exact this
      have hnote : isRateNote (attempts rc) = true := by
        simp [isRateNote, hatt, hbody]
      simp only [fetchLoop, hatt, hbody]
      refine ⟨hih.1, ?_, ?_, ?_⟩
      · intro i hi
        cases i with
        | zero => simp [waitAt, hnote]
        | succ j =>
          simp only [List.getD_cons_succ, List.length_cons] at hi ⊢
          have := hih.2.1 j (by omega)
          rw [this]
          congr 1
          omega
      · simp only [List.length_cons]; omega
      · simp only [List.length_cons]; omega



/-- **C3.** While attempts keep failing transiently (timeout, HTTP 5xx,
connection failure) or hitting the in-band `"Note"` rate-limit signal,
`fetch_intraday_data` retries up to `max_retries` attempts; each sleep
before a retry is `RETRY_DELAY * 2 ^ attempt` for the generic backoff and
`RETRY_DELAY * 5 ^ attempt` for the rate-limit signal; exhausting all
attempts raises `NetworkError`, a kind distinct from
`DataRetrievalError`. -/
theorem fetch_retry_backoff_policy (attempts : Nat → FetchOutcome)
    (maxRetries : Nat)
    (hall : ∀ i, i < maxRetries → retryable (attempts i) = true) :
    (fetch_intraday_data attempts maxRetries).2 = .err .network
    ∧ (∀ i, i < (fetch_intraday_data attempts maxRetries).1.length →
        (fetch_intraday_data attempts maxRetries).1.getD i 0 =
          if isRateNote (attempts i) then RETRY_DELAY * 5 ^ i
          else RETRY_DELAY * 2 ^ i)
    ∧ maxRetries - 1 ≤ (fetch_intraday_data attempts maxRetries).1.length
    ∧ (fetch_intraday_data attempts maxRetries).1.length ≤ maxRetries
    ∧ ApiErr.network ≠ ApiErr.dataRetrieval := by
  have h := fetchLoop_exhaust attempts maxRetries maxRetries 0 (by omega)
    (fun i _ hi => hall i hi)
  unfold fetch_intraday_data
  refine ⟨h.1, ?_, h.2.2.1, h.2.2.2, by decide⟩
  intro i hi
  have hw := h.2.1 i hi
  simpa [waitAt] using hw

/-- Witness for C3 at the concrete input where all three permitted attempts
time out: the fetch ends in `NetworkError` after backoffs 10, 20, 40. -/
theorem fetch_retry_backoff_policy_witness :
    (∀ i, i < 3 → retryable ((fun _ => FetchOutcome.timeout) i) = true)
    ∧ ((fetch_intraday_data (fun _ => FetchOutcome.timeout) 3).2 = .err .network
      ∧ (∀ i, i < (fetch_intraday_data (fun _ => FetchOutcome.timeout) 3).1.length →
          (fetch_intraday_data (fun _ => FetchOutcome.timeout) 3).1.getD i 0 =
            if isRateNote ((fun _ => FetchOutcome.timeout) i) then RETRY_DELAY * 5 ^ i
            else RETRY_DELAY * 2 ^ i)
      ∧ 3 - 1 ≤ (fetch_intraday_data (fun _ => FetchOutcome.timeout) 3).1.length
      ∧ (fetch_intraday_data (fun _ => FetchOutcome.timeout) 3).1.length ≤ 3
      ∧ ApiErr.network ≠ ApiErr.dataRetrieval) :=
  ⟨by decide, fetch_retry_backoff_policy (fun _ => FetchOutcome.timeout) 3 (by decide)⟩

/-- **C4.** Terminal outcomes never retry: an HTTP 401/403 raises
`AuthenticationError` at once with no sleep; any other HTTP 4xx fails at
once with no sleep (as a `DataRetrievalError`); a parsed response whose
time-series field is missing or empty raises `DataRetrievalError` at once
with no sleep. -/
theorem fetch_terminal_no_retry (attempts : Nat → FetchOutcome) (M : Nat)
    (hM : 0 < M) :
    (∀ status, attempts 0 = .httpError status → status = 401 ∨ status = 403 →
      fetch_intraday_data attempts M = ([], .err .auth))
    ∧ (∀ status, attempts 0 = .httpError status → 400 ≤ status →
        status < 500 → ¬(status = 401 ∨ status = 403) →
      fetch_intraday_data attempts M = ([], .err .dataRetrieval))
    ∧ (∀ b, attempts 0 = .response b → b.errorMessage = none →
        infoRaises b = false → noteRateLimited b = false →
        (b.timeSeries = none ∨ b.timeSeries = some []) →
      fetch_intraday_data attempts M = ([], .err .dataRetrieval)) := by
  obtain ⟨m, rfl⟩ : ∃ m, M = m + 1 := ⟨M - 1, by omega⟩
  refine ⟨?_, ?_, ?_⟩
  · intro status hatt hs
    have h5 : status < 500 := by rcases hs with h | h <;> omega
    unfold fetch_intraday_data
    simp only [fetchLoop, hatt, if_pos h5, if_pos hs]
  · intro status hatt _h4 h5 hns
    unfold fetch_intraday_data
    simp only [fetchLoop, hatt, if_pos h5, if_neg hns]
  · intro b hatt hem hinfo hnote hts
    have hpb : processBody b = .raiseInTry .dataRetrieval := by
      unfold processBody
      rw [hem]
      rcases hts with h | h <;> simp [hinfo, hnote, h]
    unfold fetch_intraday_data
    simp only [fetchLoop, hatt, hpb]
    rfl

/-- Witness for C4 at three concrete inputs: HTTP 403, HTTP 404, and a
response with no time-series key. -/
theorem fetch_terminal_no_retry_witness :
    fetch_intraday_data (fun _ => FetchOutcome.httpError 403) 3 =
      ([], .err .auth)
    ∧ fetch_intraday_data (fun _ => FetchOutcome.httpError 404) 3 =
      ([], .err .dataRetrieval)
    ∧ fetch_intraday_data (fun _ => FetchOutcome.response ⟨none, none, none, none⟩) 3 =
      ([], .err .dataRetrieval) :=
  ⟨(fetch_terminal_no_retry (fun _ => FetchOutcome.httpError 403) 3 (by decide)).1
      403 rfl (Or.inr rfl),
   (fetch_terminal_no_retry (fun _ => FetchOutcome.httpError 404) 3 (by decide)).2.1
      404 rfl (by decide) (by decide) (by decide),
   (fetch_terminal_no_retry (fun _ => FetchOutcome.response ⟨none, none, none, none⟩) 3
      (by decide)).2.2 ⟨none, none, none, none⟩ rfl rfl (by decide) (by decide)
      (Or.inl rfl)⟩



theorem insert_snd_cases (sym ts : String) (d : RawRow) (cr : String) (st : Store) :
    (insert_stock_data sym ts d cr st).2 = st
    ∨ ∃ r0 : Row, (insert_stock_data sym ts d cr st).2 =
        st.filter (fun x => !keyMatch sym ts x) ++ [r0]
      ∧ r0.symbol = sym ∧ r0.timestamp = ts := by
  unfold insert_stock_data
  rcases parsePrice d.openS with _ | o <;>
    rcases parsePrice d.highS with _ | h <;>
    rcases parsePrice d.lowS with _ | l <;>
    rcases parsePrice d.closeS with _ | c <;>
    rcases parseVol d.volumeS with _ | v <;>
    first
      | exact Or.inl rfl
      | exact Or.inr ⟨⟨sym, ts, o, h, l, c, v, cr⟩, rfl, rfl, rfl⟩

theorem insert_preserves {r : Row} {sym ts : String} {d : RawRow}
    {cr : String} {st : Store} (hmem : r ∈ st)
    (hkey : keyMatch sym ts r = false) :
    r ∈ (insert_stock_data sym ts d cr st).2 := by
  rcases insert_snd_cases sym ts d cr st with heq | ⟨r0, heq, _, _⟩
  · rw [heq]; exact hmem
  · rw [heq]
    exact List.mem_append_left _ (List.mem_filter.mpr ⟨hmem, by simp [hkey]⟩)

theorem foldIns_preserves (sym cr : String) (raw : List (String × RawRow)) :
    ∀ (acc : Nat × Store) (r : Row), r ∈ acc.2 →
      (∀ p ∈ raw, keyMatch sym p.1 r = false) →
      r ∈ (raw.foldl (insStep sym cr) acc).2 := by
  induction raw with
  | nil => intro acc r hmem _; simpa using hmem
  | cons p ps ih =>
    intro acc r hmem hkeys
    rw [List.foldl_cons]
    refine ih _ r ?_ (fun q hq => hkeys q (by simp [hq]))
    show r ∈ (insStep sym cr acc p).2
    exact insert_preserves hmem (hkeys p (by simp))

theorem fas_preserves_other {fr : Except ApiErr (List (String × RawRow))}
    {cr sym : String} {st : Store} {r : Row} (hmem : r ∈ st)
    (hsym : r.symbol ≠ sym) :
    r ∈ (fetch_and_store fr cr sym st).2 := by
  have hkey : ∀ ts, keyMatch sym ts r = false := by
    intro ts; simp [keyMatch, hsym]
  cases fr with
  | error e => cases e <;> exact hmem
  | ok raw =>
    cases hraw : raw.isEmpty with
    | true => simp only [fetch_and_store, hraw, if_pos]; exact hmem
    | false =>
      simp only [fetch_and_store, hraw, Bool.false_eq_true, if_false]
      exact foldIns_preserves sym cr raw (0, st) r hmem (fun p _ => hkey p.1)


theorem insert_target_mem {sym ts : String} {v : RawRow} {cr : String}
    {o h l c : Dec} {vol : Int}
    (ho : parsePrice v.openS = some o) (hh : parsePrice v.highS = some h)
    (hl : parsePrice v.lowS = some l) (hc : parsePrice v.closeS = some c)
    (hv : parseVol v.volumeS = some vol) (st : Store) :
    (⟨sym, ts, o, h, l, c, vol, cr⟩ : Row) ∈ (insert_stock_data sym ts v cr st).2 := by
  simp [insert_stock_data, ho, hh, hl, hc, hv]

theorem foldIns_keeps_target {sym ts0 cr : String} {v0 : RawRow}
    {o h l c : Dec} {vol : Int}
    (ho : parsePrice v0.openS = some o) (hh : parsePrice v0.highS = some h)
    (hl : parsePrice v0.lowS = some l) (hc : parsePrice v0.closeS = some c)
    (hv : parseVol v0.volumeS = some vol) (raw : List (String × RawRow)) :
    ∀ acc : Nat × Store,
      (⟨sym, ts0, o, h, l, c, vol, cr⟩ : Row) ∈ acc.2 →
      (∀ p ∈ raw, p.1 = ts0 → p = (ts0, v0)) →
      (⟨sym, ts0, o, h, l, c, vol, cr⟩ : Row) ∈ (raw.foldl (insStep sym cr) acc).2 := by
  induction raw with
  | nil => intro acc hmem _; simpa using hmem
  | cons p ps ih =>
    intro acc hmem huniq
    rw [List.foldl_cons]
    refine ih _ ?_ (fun q hq hq1 => huniq q (by simp [hq]) hq1)
    show (⟨sym, ts0, o, h, l, c, vol, cr⟩ : Row) ∈ (insStep sym cr acc p).2
    by_cases hts : p.1 = ts0
    · have hp : p = (ts0, v0) := huniq p (by simp) hts
      subst hp
      simp only [hts] at *
      have := @insert_target_mem sym ts0 v0 cr o h l c vol ho hh hl hc hv acc.2
      simpa [insStep, hts] using this
    · have hne : ts0 ≠ p.1 := fun he => hts he.symm
      exact insert_preserves hmem (by simp [keyMatch, hne])

theorem foldIns_mem_target {sym ts0 cr : String} {v0 : RawRow}
    {o h l c : Dec} {vol : Int}
    (ho : parsePrice v0.openS = some o) (hh : parsePrice v0.highS = some h)
    (hl : parsePrice v0.lowS = some l) (hc : parsePrice v0.closeS = some c)
    (hv : parseVol v0.volumeS = some vol) (raw : List (String × RawRow)) :
    ∀ acc : Nat × Store, (ts0, v0) ∈ raw →
      (∀ p ∈ raw, p.1 = ts0 → p = (ts0, v0)) →
      (⟨sym, ts0, o, h, l, c, vol, cr⟩ : Row) ∈ (raw.foldl (insStep sym cr) acc).2 := by
  induction raw with
  | nil => intro acc hmem _; simp at hmem
  | cons p ps ih =>
    intro acc hmem huniq
    rw [List.foldl_cons]
    by_cases hp : p = (ts0, v0)
    · subst hp
      refine foldIns_keeps_target ho hh hl hc hv ps _ ?_
        (fun q hq hq1 => huniq q (by simp [hq]) hq1)
      show (⟨sym, ts0, o, h, l, c, vol, cr⟩ : Row) ∈ (insStep sym cr acc (ts0, v0)).2
      have := @insert_target_mem sym ts0 v0 cr o h l c vol ho hh hl hc hv acc.2
      simpa [insStep] using this
    · have hmem' : (ts0, v0) ∈ ps := by
        rcases List.mem_cons.mp hmem with he | he
        · exact absurd he.symm hp
        · exact he
      exact ih _ hmem' (fun q hq hq1 => huniq q (by simp [hq]) hq1)

theorem fas_writes_target {ts0 cr sym : String} {v0 : RawRow}
    {o h l c : Dec} {vol : Int} {raw : List (String × RawRow)} {st : Store}
    (ho : parsePrice v0.openS = some o) (hh : parsePrice v0.highS = some h)
    (hl : parsePrice v0.lowS = some l) (hc : parsePrice v0.closeS = some c)
    (hv : parseVol v0.volumeS = some vol)
    (hmem : (ts0, v0) ∈ raw)
    (huniq : ∀ p ∈ raw, p.1 = ts0 → p = (ts0, v0)) :
    (⟨sym, ts0, o, h, l, c, vol, cr⟩ : Row) ∈
      (fetch_and_store (.ok raw) cr sym st).2 := by
  have hne : raw.isEmpty = false := by
    cases raw with
    | nil => simp at hmem
    | cons q qs => rfl
  simp only [fetch_and_store, hne, Bool.false_eq_true, if_false]
  exact foldIns_mem_target ho hh hl hc hv raw (0, st) hmem huniq


theorem cycleStep_false {f : String → Except ApiErr (List (String × RawRow))}
    {cr : String} {acc : Bool × Store} {sym : String} (hacc : acc.1 = false) :
    (cycleStep f cr acc sym).1 = false := by
  unfold cycleStep
  rcases hfs : fetch_and_store (f sym) cr sym acc.2 with ⟨out, st'⟩
  cases out with
  | ret b n => cases b <;> simp [hacc]
  | unboundLocal => simp

theorem cycleFold_false {f : String → Except ApiErr (List (String × RawRow))}
    {cr : String} (symbols : List String) :
    ∀ acc : Bool × Store, acc.1 = false →
      (symbols.foldl (cycleStep f cr) acc).1 = false := by
  induction symbols with
  | nil => intro acc hacc; simpa using hacc
  | cons x xs ih =>
    intro acc hacc
    rw [List.foldl_cons]
    exact ih _ (cycleStep_false hacc)

theorem cycleFold_fails {f : String → Except ApiErr (List (String × RawRow))}
    {cr A : String} (symbols : List String)
    (hfa : f A = .error .dataRetrieval) :
    ∀ acc : Bool × Store, A ∈ symbols →
      (symbols.foldl (cycleStep f cr) acc).1 = false := by
  induction symbols with
  | nil => intro acc hmem; simp at hmem
  | cons x xs ih =>
    intro acc hmem
    rw [List.foldl_cons]
    by_cases hx : x = A
    · subst hx
      refine cycleFold_false xs _ ?_
      simp [cycleStep, hfa, fetch_and_store]
    · have hmem' : A ∈ xs := by
        rcases List.mem_cons.mp hmem with he | he
        · exact absurd he.symm hx
        · exact he
      exact ih _ hmem'

theorem cycleFold_preserves_row
    {f : String → Except ApiErr (List (String × RawRow))} {cr : String}
    {r : Row} (symbols : List String) :
    ∀ acc : Bool × Store, r ∈ acc.2 → (∀ sym ∈ symbols, sym ≠ r.symbol) →
      r ∈ (symbols.foldl (cycleStep f cr) acc).2 := by
  induction symbols with
  | nil => intro acc hmem _; simpa using hmem
  | cons x xs ih =>
    intro acc hmem hsyms
    rw [List.foldl_cons]
    refine ih _ ?_ (fun q hq => hsyms q (by simp [hq]))
    show r ∈ (cycleStep f cr acc x).2
    have hne : r.symbol ≠ x := fun he => hsyms x (by simp) he.symm
    have hpres := @fas_preserves_other (f x) cr x acc.2 r hmem hne
    unfold cycleStep
    rcases hfs : fetch_and_store (f x) cr x acc.2 with ⟨out, st'⟩
    rw [hfs] at hpres
    cases out with
    | ret b n => cases b <;> simpa using hpres
    | unboundLocal => simpa using hpres


theorem cycleStep_snd (f : String → Except ApiErr (List (String × RawRow)))
    (cr : String) (acc : Bool × Store) (sym : String) :
    (cycleStep f cr acc sym).2 = (fetch_and_store (f sym) cr sym acc.2).2 := by
  unfold cycleStep
  rcases hfs : fetch_and_store (f sym) cr sym acc.2 with ⟨out, st'⟩
  cases out with
  | ret b n => cases b <;> simp
  | unboundLocal => simp

theorem refresh_cycle_partial_failure
    (symbols : List String)
    (f : String → Except ApiErr (List (String × RawRow)))
    (created cutoff : String) (st : Store) (s : ServiceState)
    (A B ts0 : String) (v0 : RawRow) (rowsB : List (String × RawRow))
    (o h l c : Dec) (vol : Int)
    (hA : A ∈ symbols) (hfa : f A = .error .dataRetrieval)
    (hfb : f B = .ok rowsB) (hBonce : symbols.count B = 1)
    (hmem : (ts0, v0) ∈ rowsB)
    (huniq : ∀ p ∈ rowsB, p.1 = ts0 → p = (ts0, v0))
    (ho : parsePrice v0.openS = some o) (hh : parsePrice v0.highS = some h)
    (hl : parsePrice v0.lowS = some l) (hc : parsePrice v0.closeS = some c)
    (hv : parseVol v0.volumeS = some vol)
    (hcut : strLt ts0 cutoff = false) :
    (update_cache symbols f created cutoff st s).1 = false
    ∧ (⟨B, ts0, o, h, l, c, vol, created⟩ : Row) ∈
        (update_cache symbols f created cutoff st s).2.1
    ∧ ∀ r ∈ (update_cache symbols f created cutoff st s).2.1,
        strLt r.timestamp cutoff = false := by
  have hBmem : B ∈ symbols := by
    have : symbols.count B ≠ 0 := by rw [hBonce]; omega
    exact Decidable.by_contra fun hn => this (List.count_eq_zero.mpr hn)
  obtain ⟨l1, l2, hsplit⟩ := List.append_of_mem hBmem
  have hl2 : l2.count B = 0 := by
    have hc2 := hBonce
    rw [hsplit, List.count_append, List.count_cons] at hc2
    simp at hc2
    omega
  have hBnotl2 : B ∉ l2 := List.count_eq_zero.mp hl2
  have hfold1 : (symbols.foldl (cycleStep f created) (true, st)).1 = false :=
    cycleFold_fails symbols hfa (true, st) hA
  have hrowmem :
      (⟨B, ts0, o, h, l, c, vol, created⟩ : Row) ∈
        (symbols.foldl (cycleStep f created) (true, st)).2 := by
    rw [hsplit, List.foldl_append, List.foldl_cons]
    set acc1 := l1.foldl (cycleStep f created) (true, st) with hacc1
    refine cycleFold_preserves_row l2 _ ?_ ?_
    · rw [cycleStep_snd, hfb]
      exact fas_writes_target ho hh hl hc hv hmem huniq
    · intro q hq
      show q ≠ (⟨B, ts0, o, h, l, c, vol, created⟩ : Row).symbol
      intro he
      have heB : q = B := he
      exact hBnotl2 (heB ▸ hq)
  refine ⟨?_, ?_, ?_⟩
  · show (symbols.foldl (cycleStep f created) (true, st)).1 = false
    exact hfold1
  · show (⟨B, ts0, o, h, l, c, vol, created⟩ : Row) ∈
      (purge_old_data cutoff (symbols.foldl (cycleStep f created) (true, st)).2).2
    exact List.mem_filter.mpr ⟨hrowmem, by simp [hcut]⟩
  · intro r hr
    have := List.mem_filter.mp hr
    simpa using this.2



/-- A concrete two-outcome fetch oracle: `"AMZN"` raises
`DataRetrievalError`, every other symbol returns one data point (the
spec's test-scenario values open=10, high=11, low=9, close=10.5,
volume=1000). -/
def demoFetch : String → Except ApiErr (List (String × RawRow)) := fun sym =>
  if sym = "AMZN" then .error .dataRetrieval
  else .ok [("2024-01-01 10:00:00",
    ⟨some "10", some "11", some "9", some "10.5", some "1000"⟩)]

/-- Witness for C2: the two-symbol cycle erroring on AMZN still writes
FB's row, purges, and reports overall failure. -/
theorem refresh_cycle_partial_failure_witness :
    (update_cache ["AMZN", "FB"] demoFetch "c" "1900-01-01 00:00:00" []
      ⟨0, 0, 0, 0⟩).1 = false
    ∧ (⟨"FB", "2024-01-01 10:00:00", ⟨10, 0⟩, ⟨11, 0⟩, ⟨9, 0⟩, ⟨105, 1⟩,
        1000, "c"⟩ : Row) ∈
      (update_cache ["AMZN", "FB"] demoFetch "c" "1900-01-01 00:00:00" []
        ⟨0, 0, 0, 0⟩).2.1
    ∧ ∀ r ∈ (update_cache ["AMZN", "FB"] demoFetch "c" "1900-01-01 00:00:00" []
        ⟨0, 0, 0, 0⟩).2.1, strLt r.timestamp "1900-01-01 00:00:00" = false :=
  refresh_cycle_partial_failure ["AMZN", "FB"] demoFetch "c"
    "1900-01-01 00:00:00" [] ⟨0, 0, 0, 0⟩ "AMZN" "FB" "2024-01-01 10:00:00"
    ⟨some "10", some "11", some "9", some "10.5", some "1000"⟩
    [("2024-01-01 10:00:00",
      ⟨some "10", some "11", some "9", some "10.5", some "1000"⟩)]
    ⟨10, 0⟩ ⟨11, 0⟩ ⟨9, 0⟩ ⟨105, 1⟩ 1000
    (by decide) rfl rfl (by decide) (by decide) (by decide)
    (by decide) (by decide) (by decide) (by decide) (by decide) (by decide)

/-- A fetch oracle where `"GOOG"`'s fetch raises `RateLimitError` and the
other symbols return one data point each. -/
def demoFetchRL : String → Except ApiErr (List (String × RawRow)) := fun sym =>
  if sym = "GOOG" then .error .rateLimit
  else .ok [("2024-01-01 10:00:00",
    ⟨some "10", some "11", some "9", some "10.5", some "1000"⟩)]

/-- **C1 (the code contradicts the claim).**  When a symbol's fetch raises
`RateLimitError`, the `except RateLimitError` handler of
`_fetch_and_store` evaluates `success_count`, which is unbound on that
path, so the task raises `UnboundLocalError` instead of returning partial
success; `update_cache` catches it as a generic exception, logs an error
(not a warning), and marks the cycle failed.  Other symbols' tasks do
continue: with GOOG rate-limited first, FB's row is still written, but the
GOOG task reports no `(success, count)` pair at all. -/
theorem rate_limit_task_unbound_local :
    (fetch_and_store (.error .rateLimit) "c" "GOOG" []).1 =
      TaskOutcome.unboundLocal
    ∧ (update_cache ["GOOG", "FB"] demoFetchRL "c" "1900-01-01 00:00:00" []
        ⟨0, 0, 0, 0⟩).1 = false
    ∧ (⟨"FB", "2024-01-01 10:00:00", ⟨10, 0⟩, ⟨11, 0⟩, ⟨9, 0⟩, ⟨105, 1⟩,
        1000, "c"⟩ : Row) ∈
      (update_cache ["GOOG", "FB"] demoFetchRL "c" "1900-01-01 00:00:00" []
        ⟨0, 0, 0, 0⟩).2.1 := by
  refine ⟨rfl, by decide, by decide⟩



/-- A one-row store used by concrete witnesses. -/
def demoStore : Store :=
  [⟨"FB", "2024-01-01 10:00:00", ⟨10, 0⟩, ⟨11, 0⟩, ⟨9, 0⟩, ⟨105, 1⟩, 1000, "c"⟩]

/-- Witness for C6 (amended): the `"100.0000"`-style strings round-trip to
their normalized renderings. -/
theorem roundtrip_normalized_witness :
    (insert_stock_data "FB" "2024-01-01 10:00:00"
      ⟨some "100.0000", some "101.0000", some "99.0000", some "100.5000",
        some "1000000"⟩ "c" []).1 = true
    ∧ List.lookup "2024-01-01 10:00:00"
        (get_stock_data "FB" "1900-01-01 00:00:00"
          (insert_stock_data "FB" "2024-01-01 10:00:00"
            ⟨some "100.0000", some "101.0000", some "99.0000", some "100.5000",
              some "1000000"⟩ "c" []).2) =
      some ⟨printFloat ⟨1000000, 4⟩, printFloat ⟨1010000, 4⟩,
        printFloat ⟨990000, 4⟩, printFloat ⟨1005000, 4⟩, printInt 1000000⟩ :=
  roundtrip_normalized "FB" "2024-01-01 10:00:00"
    ⟨some "100.0000", some "101.0000", some "99.0000", some "100.5000",
      some "1000000"⟩ "c" "1900-01-01 00:00:00" []
    ⟨1000000, 4⟩ ⟨1010000, 4⟩ ⟨990000, 4⟩ ⟨1005000, 4⟩ 1000000
    (by decide) (by decide) (by decide) (by decide) (by decide) (by decide)
    (by decide)

/-- Witness for C7 at a concrete pair of upserts to the same key. -/
theorem upsert_last_write_wins_witness :
    ((insert_stock_data "FB" "2024-01-01 10:00:00"
        ⟨some "2.5", some "2.5", some "2.5", some "2.5", some "7"⟩ "c2"
        (insert_stock_data "FB" "2024-01-01 10:00:00"
          ⟨some "1", some "1", some "1", some "1", some "1"⟩ "c1" []).2).2).filter
      (keyMatch "FB" "2024-01-01 10:00:00") =
      [⟨"FB", "2024-01-01 10:00:00", ⟨25, 1⟩, ⟨25, 1⟩, ⟨25, 1⟩, ⟨25, 1⟩, 7,
        "c2"⟩] :=
  upsert_last_write_wins "FB" "2024-01-01 10:00:00"
    ⟨some "1", some "1", some "1", some "1", some "1"⟩
    ⟨some "2.5", some "2.5", some "2.5", some "2.5", some "7"⟩
    "c1" "c2" [] ⟨25, 1⟩ ⟨25, 1⟩ ⟨25, 1⟩ ⟨25, 1⟩ 7
    (by decide) (by decide) (by decide) (by decide) (by decide) (by decide)

/-- Witness for C8 at a concrete never-fetched symbol over a non-empty
store. -/
theorem get_data_miss_counts_witness :
    (get_data "tsla" "1900-01-01 00:00:00" demoStore ⟨1, 2, 3, 4⟩).1 = []
    ∧ (get_data "tsla" "1900-01-01 00:00:00" demoStore
        ⟨1, 2, 3, 4⟩).2.cache_misses = 4 + 1
    ∧ (get_data "tsla" "1900-01-01 00:00:00" demoStore
        ⟨1, 2, 3, 4⟩).2.cache_hits = 3 :=
  (get_data_miss_counts "tsla" "1900-01-01 00:00:00" demoStore
    ⟨1, 2, 3, 4⟩).1 (by decide)

/-- Witness for C9: a present but non-numeric field makes the insert
return `False`. -/
theorem insert_missing_fields_default_witness :
    (insert_stock_data "FB" "2024-01-01 10:00:00"
      ⟨some "abc", none, none, none, none⟩ "c" []).1 = false :=
  (insert_missing_fields_default "FB" "2024-01-01 10:00:00" "c"
    ⟨some "abc", none, none, none, none⟩ []).2.mpr
    (Or.inl ⟨"abc", rfl, by decide⟩)


end FangService
